import Mathlib

/-!
Shallow embedding of the `TimerEngine` of the reptimer repository
(source: the engine module exporting `class TimerEngine`, together with
the `Interval`/`Routine`/`TimerState` declarations of `types.ts`).

Modelling conventions:
* Wall-clock instants (`Date.now()`) and millisecond quantities are `Int`.
  Interval durations are natural numbers of seconds (the loader contract
  guarantees positive integer durations; naturals keep nonnegativity free).
* JavaScript `Math.floor(x / 1000)` on an integer `x` is Euclidean division
  by the positive constant `1000`, written `x / 1000` on `Int`.
  JavaScript `Math.ceil(x / 1000)` is `ceilDiv x 1000` below.
* The `requestAnimationFrame` handle is modelled as a `Bool` field
  `animationFrameId` meaning "a re-evaluation callback is pending";
  the host firing that callback is the trace event `Op.frame`, which
  clears the flag and runs `tick`.
* The three callbacks `onTick` / `onIntervalChange` / `onComplete` are
  modelled by operations returning the list of notifications they emit,
  in emission order.
-/

namespace Reptimer

inductive IntervalType where
  | warmup | work | rest | finisher | cooldown
  deriving Repr, DecidableEq

/-- `Interval` of `types.ts`: label, duration in seconds, type, optional color. -/
structure Interval where
  label : String
  duration : Nat
  type : IntervalType
  color : Option String := none
  deriving Repr, DecidableEq

abbrev Routine := List Interval

/-- `TimerState` of `types.ts`: the snapshot payload of a tick notification. -/
structure TimerState where
  isRunning : Bool
  isPaused : Bool
  currentIntervalIndex : Nat
  timeRemaining : Int
  totalElapsed : Int
  totalDuration : Int
  deriving Repr, DecidableEq

/-- One callback invocation made by the engine. -/
inductive Notification where
  | tick (s : TimerState)
  | intervalChange (i : Nat)
  | complete
  deriving Repr, DecidableEq

/-- The mutable fields of `class TimerEngine`. -/
structure Engine where
  startTime : Int
  pausedTime : Int
  pauseStartTime : Int
  animationFrameId : Bool
  routine : Routine
  currentIntervalIndex : Nat
  isRunning : Bool
  isPaused : Bool
  deriving Repr, DecidableEq

/-- The field initializers of the constructor. -/
def initEngine : Engine :=
  { startTime := 0, pausedTime := 0, pauseStartTime := 0,
    animationFrameId := false, routine := [],
    currentIntervalIndex := 0, isRunning := false, isPaused := false }

/-- `interval.duration * 1000`: one interval's duration in milliseconds. -/
def durMs (iv : Interval) : Int := (iv.duration : Int) * 1000

/-- `routine.slice(0, i).reduce((sum, interval) => sum + interval.duration * 1000, 0)`:
milliseconds of the intervals strictly before index `i`. -/
def cumBeforeMs (r : Routine) (i : Nat) : Int :=
  ((r.take i).map durMs).sum

/-- `routine.reduce((sum, interval) => sum + interval.duration * 1000, 0)`. -/
def totalDurationMs (r : Routine) : Int :=
  (r.map durMs).sum

/-- Duration in milliseconds of the interval at index `i` (`0` out of bounds,
matching the falsy treatment of `undefined`/`null` in `updateState`). -/
def intervalMs (r : Routine) (i : Nat) : Int :=
  match r.get? i with
  | some iv => durMs iv
  | none => 0

/-- `Math.ceil(a / b)` for integer `a` and positive integer `b`. -/
def ceilDiv (a b : Int) : Int := -((-a) / b)

/-- `getCurrentInterval()`. -/
def getCurrentInterval (e : Engine) : Option Interval :=
  if 0 < e.routine.length then e.routine.get? e.currentIntervalIndex else none

/-- `getNextInterval()`. -/
def getNextInterval (e : Engine) : Option Interval :=
  if e.currentIntervalIndex + 1 < e.routine.length then
    e.routine.get? (e.currentIntervalIndex + 1)
  else none

/-- `updateState()`: builds the `TimerState` snapshot passed to `onTick`. -/
def updateState (e : Engine) (now : Int) : TimerState :=
  let totalElapsed : Int :=
    if e.isRunning then now - e.startTime - e.pausedTime
    else if e.isPaused then e.pauseStartTime - e.startTime - e.pausedTime
    else 0
  let elapsedForPreviousIntervals := cumBeforeMs e.routine e.currentIntervalIndex
  let currentIntervalElapsed := max 0 (totalElapsed - elapsedForPreviousIntervals)
  let currentIntervalDurationMs :=
    match getCurrentInterval e with
    | some iv => durMs iv
    | none => 0
  let timeRemainingMs := max 0 (currentIntervalDurationMs - currentIntervalElapsed)
  { isRunning := e.isRunning,
    isPaused := e.isPaused,
    currentIntervalIndex := e.currentIntervalIndex,
    timeRemaining := ceilDiv timeRemainingMs 1000,
    totalElapsed := totalElapsed / 1000,
    totalDuration := totalDurationMs e.routine / 1000 }

/-- `reset()`. -/
def reset (e : Engine) (now : Int) : Engine × List Notification :=
  let e1 := { e with isRunning := false, isPaused := false,
                     currentIntervalIndex := 0,
                     startTime := 0, pausedTime := 0, pauseStartTime := 0,
                     animationFrameId := false }
  (e1, [Notification.tick (updateState e1 now)])

/-- `setRoutine(routine)` (the spec's `loadRoutine`). -/
def setRoutine (e : Engine) (now : Int) (r : Routine) : Engine × List Notification :=
  let e1 := { e with routine := r }
  let p := reset e1 now
  (p.1, p.2 ++ [Notification.tick (updateState p.1 now)])

/-- The index search loop of `tick`: accumulates `elapsedMs` and walks
`intervalIndex` forward; breaks at the first interval whose span has not
yet been passed. -/
def derivedIndexAux (t : Int) : Routine → Int → Nat → Nat
  | [], _, k => k
  | iv :: rest, elapsedMs, k =>
      if t < elapsedMs + durMs iv then k
      else derivedIndexAux t rest (elapsedMs + durMs iv) (k + 1)

/-- The interval index `tick` derives from total elapsed milliseconds `t`. -/
def derivedIndex (r : Routine) (t : Int) : Nat :=
  derivedIndexAux t r 0 0

/-- `tick` (the arrow-function field): re-derives the interval index from the
wall clock, fires `onIntervalChange`/`onComplete` as needed, and either stops
(completion) or emits a snapshot and schedules the next iteration. -/
def tick (e : Engine) (now : Int) : Engine × List Notification :=
  if e.isRunning then
    let totalElapsed := now - e.startTime - e.pausedTime
    let intervalIndex := derivedIndex e.routine totalElapsed
    let p : Engine × List Notification :=
      if intervalIndex ≠ e.currentIntervalIndex ∧ intervalIndex < e.routine.length then
        ({ e with currentIntervalIndex := intervalIndex },
         [Notification.intervalChange intervalIndex])
      else (e, [])
    if e.routine.length ≤ intervalIndex then
      ({ p.1 with isRunning := false }, p.2 ++ [Notification.complete])
    else
      let e2 := { p.1 with animationFrameId := true }
      (e2, p.2 ++ [Notification.tick (updateState e2 now)])
  else (e, [])

/-- `start()`. -/
def start (e : Engine) (now : Int) : Engine × List Notification :=
  if e.routine.length = 0 then (e, [])
  else
    let e1 :=
      if e.isPaused then
        { e with pausedTime := e.pausedTime + (now - e.pauseStartTime),
                 isPaused := false }
      else
        { e with startTime := now, pausedTime := 0 }
    tick { e1 with isRunning := true } now

/-- `pause()`. -/
def pause (e : Engine) (now : Int) : Engine × List Notification :=
  if e.isRunning then
    let e1 := { e with isPaused := true, isRunning := false,
                       pauseStartTime := now, animationFrameId := false }
    (e1, [Notification.tick (updateState e1 now)])
  else (e, [])

/-- `adjustTimerForNewInterval()`. -/
def adjustTimerForNewInterval (e : Engine) (now : Int) : Engine × List Notification :=
  let elapsedForPreviousIntervals := cumBeforeMs e.routine e.currentIntervalIndex
  let e1 := { e with startTime := now - elapsedForPreviousIntervals, pausedTime := 0 }
  (e1, [Notification.tick (updateState e1 now)])

/-- `nextInterval()`. The guard compares as JavaScript numbers:
`currentIntervalIndex < routine.length - 1` with `length - 1 = -1` on an
empty routine. -/
def nextInterval (e : Engine) (now : Int) : Engine × List Notification :=
  if (e.currentIntervalIndex : Int) < (e.routine.length : Int) - 1 then
    let e1 := { e with currentIntervalIndex := e.currentIntervalIndex + 1 }
    let p := adjustTimerForNewInterval e1 now
    (p.1, p.2 ++ [Notification.intervalChange e1.currentIntervalIndex])
  else (e, [])

/-- `previousInterval()`. -/
def previousInterval (e : Engine) (now : Int) : Engine × List Notification :=
  if 0 < e.currentIntervalIndex then
    let e1 := { e with currentIntervalIndex := e.currentIntervalIndex - 1 }
    let p := adjustTimerForNewInterval e1 now
    (p.1, p.2 ++ [Notification.intervalChange e1.currentIntervalIndex])
  else (e, [])

/-- `destroy()`. -/
def destroy (e : Engine) : Engine :=
  { e with animationFrameId := false }

/-- Caller-visible events: the public operations, plus the host firing a
pending animation-frame callback. -/
inductive Op where
  | load (r : Routine)
  | opStart
  | opPause
  | opReset
  | next
  | prev
  | frame
  deriving Repr, DecidableEq

/-- One event applied to the engine at instant `now`. A `frame` event has an
effect only when a callback is pending, and clears the pending flag before
running `tick` (the fired handle is spent). -/
def stepOp (e : Engine) (now : Int) : Op → Engine × List Notification
  | Op.load r => setRoutine e now r
  | Op.opStart => start e now
  | Op.opPause => pause e now
  | Op.opReset => reset e now
  | Op.next => nextInterval e now
  | Op.prev => previousInterval e now
  | Op.frame =>
      if e.animationFrameId then tick { e with animationFrameId := false } now
      else (e, [])

/-- Run a list of timed events, concatenating all emitted notifications. -/
def runTrace (e : Engine) : List (Int × Op) → Engine × List Notification
  | [] => (e, [])
  | (t, op) :: rest =>
      let p := stepOp e t op
      let q := runTrace p.1 rest
      (q.1, p.2 ++ q.2)

/-- Event instants are nondecreasing, starting no earlier than `t`. -/
def chronological : Int → List (Int × Op) → Bool
  | _, [] => true
  | t, (t', _) :: rest => decide (t ≤ t') && chronological t' rest

/-- No interval-navigation event occurs while the engine is paused. -/
def noPausedNav (e : Engine) : List (Int × Op) → Bool
  | [] => true
  | (t, op) :: rest =>
      (!((op == Op.next || op == Op.prev) && e.isPaused)) &&
      noPausedNav (stepOp e t op).1 rest

/-- Concrete 5-second work interval used in scenario checks. -/
def demoA5 : Interval := ⟨"A", 5, IntervalType.work, none⟩

/-- Concrete 10-second rest interval used in scenario checks. -/
def demoB10 : Interval := ⟨"B", 10, IntervalType.rest, none⟩

/-- The routine `[{A,5s},{B,10s}]` of the boundary-crossing scenario. -/
def demoAB : Routine := [demoA5, demoB10]

/-- A single 3-second interval, used in the completion scenario. -/
def demoSingle3 : Routine := [⟨"A", 3, IntervalType.work, none⟩]

/-- Keeps only the interval-changed notifications. -/
def intervalChanges (ns : List Notification) : List Notification :=
  ns.filter (fun n => match n with
    | Notification.intervalChange _ => true
    | _ => false)

/-- Two 10-second intervals, used to probe paused navigation. -/
def c4Routine : Routine :=
  [⟨"A", 10, IntervalType.work, none⟩, ⟨"B", 10, IntervalType.rest, none⟩]

/-- Start, pause at 1s, navigate forward while paused at 100s, resume at
100.001s: the resume re-evaluation reports a negative elapsed time. -/
def c4Trace : List (Int × Op) :=
  [(0, Op.load c4Routine), (0, Op.opStart), (1000, Op.opPause),
   (100000, Op.next), (100001, Op.opStart)]

/-- Load `[{A,5s},{B,10s}]`, start, and let one re-evaluation fire at 1s. -/
def c4WitnessTrace : List (Int × Op) :=
  [(0, Op.load demoAB), (0, Op.opStart), (1000, Op.frame)]

/-- The out-of-range snapshot the `c4Trace` run emits while running. -/
def c4BadSnapshot : TimerState :=
  { isRunning := true, isPaused := false, currentIntervalIndex := 0,
    timeRemaining := 10, totalElapsed := -89, totalDuration := 20 }

/-- The in-range snapshot the `c4WitnessTrace` run emits while running. -/
def c4GoodSnapshot : TimerState :=
  { isRunning := true, isPaused := false, currentIntervalIndex := 0,
    timeRemaining := 4, totalElapsed := 1, totalDuration := 15 }

/-- Engine state after loading `[{A,3s}]` and starting at instant 0. -/
def eC5 : Engine :=
  (runTrace initEngine [(0, Op.load demoSingle3), (0, Op.opStart)]).1

/-- Engine state after loading `[{A,3s}]`, starting at 0, and the
re-evaluation at 3000ms (which completes the workout). -/
def eCompleted : Engine :=
  (runTrace initEngine
    [(0, Op.load demoSingle3), (0, Op.opStart), (3000, Op.frame)]).1

/-- Engine state after loading `[{A,5s},{B,10s}]` (idle at index 0). -/
def eC7 : Engine := (setRoutine initEngine 0 demoAB).1

/-- Engine state after loading `[{A,5s},{B,10s}]`, starting at 0, and a
re-evaluation at 6000ms (running inside the second interval). -/
def eC10 : Engine :=
  (runTrace initEngine
    [(0, Op.load demoAB), (0, Op.opStart), (6000, Op.frame)]).1

/-- Sum of the durations of a routine, in seconds. -/
def sumDurations (r : Routine) : Nat :=
  (r.map Interval.duration).sum

/-! ### Arithmetic of the cumulative duration boundaries -/

lemma durMs_nonneg (iv : Interval) : 0 ≤ durMs iv := by
  simp [durMs]

lemma cumBeforeMs_zero (r : Routine) : cumBeforeMs r 0 = 0 := by
  simp [cumBeforeMs]

lemma cumBeforeMs_nil (i : Nat) : cumBeforeMs [] i = 0 := by
  simp [cumBeforeMs]

lemma cumBeforeMs_cons_succ (iv : Interval) (rest : Routine) (i : Nat) :
    cumBeforeMs (iv :: rest) (i + 1) = durMs iv + cumBeforeMs rest i := by
  simp [cumBeforeMs, List.take_succ_cons]

lemma cumBeforeMs_nonneg (r : Routine) (i : Nat) : 0 ≤ cumBeforeMs r i := by
  apply List.sum_nonneg
  intro x hx
  obtain ⟨iv, _, rfl⟩ := List.mem_map.mp hx
  exact durMs_nonneg iv

lemma totalDurationMs_nil : totalDurationMs [] = 0 := rfl

lemma totalDurationMs_cons (iv : Interval) (rest : Routine) :
    totalDurationMs (iv :: rest) = durMs iv + totalDurationMs rest := by
  simp [totalDurationMs]

lemma totalDurationMs_nonneg (r : Routine) : 0 ≤ totalDurationMs r := by
  apply List.sum_nonneg
  intro x hx
  obtain ⟨iv, _, rfl⟩ := List.mem_map.mp hx
  exact durMs_nonneg iv

lemma cumBeforeMs_le_total (r : Routine) (i : Nat) :
    cumBeforeMs r i ≤ totalDurationMs r := by
  have hsplit : totalDurationMs r = cumBeforeMs r i + ((r.drop i).map durMs).sum := by
    unfold totalDurationMs cumBeforeMs
    rw [← List.sum_append, ← List.map_append, List.take_append_drop]
  have hdrop : 0 ≤ ((r.drop i).map durMs).sum := by
    apply List.sum_nonneg
    intro x hx
    obtain ⟨iv, _, rfl⟩ := List.mem_map.mp hx
    exact durMs_nonneg iv
  omega

lemma intervalMs_cons_zero (iv : Interval) (rest : Routine) :
    intervalMs (iv :: rest) 0 = durMs iv := rfl

lemma intervalMs_cons_succ (iv : Interval) (rest : Routine) (i : Nat) :
    intervalMs (iv :: rest) (i + 1) = intervalMs rest i := rfl

lemma intervalMs_nonneg (r : Routine) (i : Nat) : 0 ≤ intervalMs r i := by
  unfold intervalMs
  cases r.get? i with
  | none => simp
  | some iv => simpa using durMs_nonneg iv

lemma totalDurationMs_eq_sumDurations (r : Routine) :
    totalDurationMs r = (sumDurations r : Int) * 1000 := by
  induction r with
  | nil => simp [totalDurationMs, sumDurations]
  | cons iv rest ih =>
      rw [totalDurationMs_cons, ih]
      simp only [sumDurations, List.map_cons, List.sum_cons, durMs]
      push_cast
      ring

/-! ### Characterization of the derived interval index -/

/-- Structural reformulation of the index search, used only in proofs and
related to `derivedIndexAux` by `derivedIndexAux_eq_idxIn`. -/
def idxIn (t : Int) : Routine → Nat
  | [] => 0
  | iv :: rest => if t < durMs iv then 0 else idxIn (t - durMs iv) rest + 1

lemma derivedIndexAux_eq_idxIn (t : Int) :
    ∀ (r : Routine) (acc : Int) (k : Nat),
      derivedIndexAux t r acc k = k + idxIn (t - acc) r
  | [], acc, k => by simp [derivedIndexAux, idxIn]
  | iv :: rest, acc, k => by
      by_cases h : t < acc + durMs iv
      · rw [derivedIndexAux, if_pos h, idxIn, if_pos (by omega)]
        omega
      · rw [derivedIndexAux, if_neg h, idxIn, if_neg (by omega),
          derivedIndexAux_eq_idxIn t rest (acc + durMs iv) (k + 1)]
        have harg : t - (acc + durMs iv) = t - acc - durMs iv := by ring
        rw [harg]
        omega

lemma derivedIndex_eq_idxIn (r : Routine) (t : Int) :
    derivedIndex r t = idxIn t r := by
  rw [derivedIndex, derivedIndexAux_eq_idxIn]
  simp

lemma idxIn_le_length (t : Int) : ∀ r : Routine, idxIn t r ≤ r.length := by
  intro r
  induction r generalizing t with
  | nil => simp [idxIn]
  | cons iv rest ih =>
      rw [idxIn]
      by_cases h : t < durMs iv
      · simp [h]
      · rw [if_neg h]
        have := ih (t - durMs iv)
        simpa using Nat.succ_le_succ this

lemma idxIn_eq_length_of_total_le {t : Int} :
    ∀ {r : Routine}, totalDurationMs r ≤ t → idxIn t r = r.length := by
  intro r
  induction r generalizing t with
  | nil => simp [idxIn]
  | cons iv rest ih =>
      intro h
      rw [totalDurationMs_cons] at h
      have hrest := totalDurationMs_nonneg rest
      rw [idxIn, if_neg (by omega)]
      rw [ih (by omega)]
      simp

lemma idxIn_lt_length {t : Int} :
    ∀ {r : Routine}, 0 ≤ t → t < totalDurationMs r → idxIn t r < r.length := by
  intro r
  induction r generalizing t with
  | nil => intro h0 h; rw [totalDurationMs_nil] at h; omega
  | cons iv rest ih =>
      intro h0 h
      rw [totalDurationMs_cons] at h
      rw [idxIn]
      by_cases hlt : t < durMs iv
      · simp [hlt]
      · rw [if_neg hlt]
        have := ih (t := t - durMs iv) (by omega) (by omega)
        simpa using Nat.succ_lt_succ this

lemma idxIn_mem {t : Int} :
    ∀ {r : Routine}, 0 ≤ t → idxIn t r < r.length →
      cumBeforeMs r (idxIn t r) ≤ t ∧
      t < cumBeforeMs r (idxIn t r) + intervalMs r (idxIn t r) := by
  intro r
  induction r generalizing t with
  | nil => intro _ h; simp [idxIn] at h
  | cons iv rest ih =>
      intro h0 hlen
      by_cases hlt : t < durMs iv
      · rw [idxIn, if_pos hlt] at hlen ⊢
        rw [cumBeforeMs_zero, intervalMs_cons_zero]
        omega
      · rw [idxIn, if_neg hlt] at hlen ⊢
        have hlen' : idxIn (t - durMs iv) rest < rest.length := by
          simpa using hlen
        have := ih (t := t - durMs iv) (by omega) hlen'
        rw [cumBeforeMs_cons_succ, intervalMs_cons_succ]
        omega

lemma idxIn_unique : ∀ (r : Routine) (t : Int) (i : Nat), 0 ≤ t → i < r.length →
      cumBeforeMs r i ≤ t → t < cumBeforeMs r i + intervalMs r i →
      i = idxIn t r := by
  intro r
  induction r with
  | nil => intro t i _ h; simp at h
  | cons iv rest ih =>
      intro t i h0 hi hlow hhigh
      cases i with
      | zero =>
          rw [cumBeforeMs_zero, intervalMs_cons_zero] at hhigh
          rw [idxIn, if_pos (by omega)]
      | succ j =>
          rw [cumBeforeMs_cons_succ] at hlow hhigh
          rw [intervalMs_cons_succ] at hhigh
          have hcnn := cumBeforeMs_nonneg rest j
          rw [idxIn, if_neg (by omega)]
          have := ih (t - durMs iv) j (by omega) (by simpa using hi)
            (by omega) (by omega)
          omega

lemma derivedIndex_le_length (r : Routine) (t : Int) :
    derivedIndex r t ≤ r.length := by
  rw [derivedIndex_eq_idxIn]; exact idxIn_le_length t r

lemma derivedIndex_eq_length {r : Routine} {t : Int}
    (h : totalDurationMs r ≤ t) : derivedIndex r t = r.length := by
  rw [derivedIndex_eq_idxIn]; exact idxIn_eq_length_of_total_le h

lemma derivedIndex_lt_length {r : Routine} {t : Int}
    (h0 : 0 ≤ t) (h : t < totalDurationMs r) : derivedIndex r t < r.length := by
  rw [derivedIndex_eq_idxIn]; exact idxIn_lt_length h0 h

lemma derivedIndex_mem {r : Routine} {t : Int}
    (h0 : 0 ≤ t) (h : derivedIndex r t < r.length) :
    cumBeforeMs r (derivedIndex r t) ≤ t ∧
    t < cumBeforeMs r (derivedIndex r t) + intervalMs r (derivedIndex r t) := by
  rw [derivedIndex_eq_idxIn] at h ⊢
  exact idxIn_mem h0 h

lemma derivedIndex_unique {r : Routine} {t : Int} {i : Nat}
    (h0 : 0 ≤ t) (hi : i < r.length)
    (hlow : cumBeforeMs r i ≤ t) (hhigh : t < cumBeforeMs r i + intervalMs r i) :
    i = derivedIndex r t := by
  rw [derivedIndex_eq_idxIn]
  exact idxIn_unique r t i h0 hi hlow hhigh

lemma lt_total_of_derivedIndex_lt {r : Routine} {t : Int}
    (h : derivedIndex r t < r.length) : t < totalDurationMs r := by
  by_contra hle
  rw [derivedIndex_eq_length (by omega)] at h
  omega

/-! ### Rounding arithmetic -/

lemma ediv_1000_nonneg {a : Int} (h : 0 ≤ a) : 0 ≤ a / 1000 :=
  Int.ediv_nonneg h (by norm_num)

lemma ediv_1000_mono {a b : Int} (h : a ≤ b) : a / 1000 ≤ b / 1000 :=
  Int.ediv_le_ediv (by norm_num) h

lemma ceilDiv_nonneg {a : Int} (h : 0 ≤ a) : 0 ≤ ceilDiv a 1000 := by
  unfold ceilDiv
  have : (-a) / 1000 ≤ 0 / 1000 := Int.ediv_le_ediv (by norm_num) (by omega)
  simp at this
  omega

lemma ceilDiv_mono {a b : Int} (h : a ≤ b) : ceilDiv a 1000 ≤ ceilDiv b 1000 := by
  unfold ceilDiv
  have : (-b) / 1000 ≤ (-a) / 1000 := Int.ediv_le_ediv (by norm_num) (by omega)
  omega

lemma ceilDiv_mul_1000 (k : Int) : ceilDiv (k * 1000) 1000 = k := by
  unfold ceilDiv
  rw [← Int.neg_mul, Int.mul_ediv_cancel _ (by norm_num)]
  ring

lemma ediv_mul_1000 (k : Int) : (k * 1000) / 1000 = k :=
  Int.mul_ediv_cancel _ (by norm_num)

/-! ### Snapshot field lemmas -/

lemma updateState_flags (e : Engine) (now : Int) :
    (updateState e now).isRunning = e.isRunning ∧
    (updateState e now).isPaused = e.isPaused ∧
    (updateState e now).currentIntervalIndex = e.currentIntervalIndex := by
  constructor
  · rfl
  constructor <;> rfl

lemma updateState_totalDuration (e : Engine) (now : Int) :
    (updateState e now).totalDuration = totalDurationMs e.routine / 1000 := rfl

lemma updateState_totalElapsed_of_running {e : Engine} (now : Int)
    (h : e.isRunning = true) :
    (updateState e now).totalElapsed = (now - e.startTime - e.pausedTime) / 1000 := by
  simp [updateState, h]

/-! ### Branch equations for the operations -/

lemma tick_not_running {e : Engine} {t : Int} (hr : e.isRunning = false) :
    tick e t = (e, []) := by
  simp [tick, hr]

lemma tick_complete {e : Engine} {t : Int} (hr : e.isRunning = true)
    (hc : e.routine.length ≤ derivedIndex e.routine (t - e.startTime - e.pausedTime)) :
    tick e t = ({ e with isRunning := false }, [Notification.complete]) := by
  have hcond : ¬(derivedIndex e.routine (t - e.startTime - e.pausedTime) ≠
      e.currentIntervalIndex ∧
      derivedIndex e.routine (t - e.startTime - e.pausedTime) < e.routine.length) := by
    omega
  simp [tick, hr, hcond, hc]

lemma tick_run_changed {e : Engine} {t : Int} (hr : e.isRunning = true)
    (hc : derivedIndex e.routine (t - e.startTime - e.pausedTime) < e.routine.length)
    (hne : derivedIndex e.routine (t - e.startTime - e.pausedTime) ≠
      e.currentIntervalIndex) :
    tick e t =
      (let e2 := { e with
          currentIntervalIndex := derivedIndex e.routine (t - e.startTime - e.pausedTime),
          animationFrameId := true }
       (e2, [Notification.intervalChange
              (derivedIndex e.routine (t - e.startTime - e.pausedTime)),
             Notification.tick (updateState e2 t)])) := by
  have hnc : ¬(e.routine.length ≤
      derivedIndex e.routine (t - e.startTime - e.pausedTime)) := by omega
  simp [tick, hr, hne, hc, hnc]

lemma tick_run_same {e : Engine} {t : Int} (hr : e.isRunning = true)
    (hc : derivedIndex e.routine (t - e.startTime - e.pausedTime) < e.routine.length)
    (heq : derivedIndex e.routine (t - e.startTime - e.pausedTime) =
      e.currentIntervalIndex) :
    tick e t =
      (let e2 := { e with animationFrameId := true }
       (e2, [Notification.tick (updateState e2 t)])) := by
  have hnc : ¬(e.routine.length ≤
      derivedIndex e.routine (t - e.startTime - e.pausedTime)) := by omega
  simp [tick, hr, heq, hnc]
  omega

lemma start_empty {e : Engine} {t : Int} (hlen : e.routine.length = 0) :
    start e t = (e, []) := by
  simp [start, hlen]

lemma start_fresh {e : Engine} {t : Int} (hlen : e.routine.length ≠ 0)
    (hp : e.isPaused = false) :
    start e t =
      tick { e with startTime := t, pausedTime := 0, isRunning := true } t := by
  simp [start, hlen, hp]

lemma start_resume {e : Engine} {t : Int} (hlen : e.routine.length ≠ 0)
    (hp : e.isPaused = true) :
    start e t =
      tick { e with pausedTime := e.pausedTime + (t - e.pauseStartTime),
                    isPaused := false, isRunning := true } t := by
  simp [start, hlen, hp]

lemma pause_not_running {e : Engine} {t : Int} (hr : e.isRunning = false) :
    pause e t = (e, []) := by
  simp [pause, hr]

lemma pause_running {e : Engine} {t : Int} (hr : e.isRunning = true) :
    pause e t =
      (let e1 := { e with isPaused := true, isRunning := false,
                          pauseStartTime := t, animationFrameId := false }
       (e1, [Notification.tick (updateState e1 t)])) := by
  simp [pause, hr]

lemma nextInterval_move {e : Engine} {t : Int}
    (h : (e.currentIntervalIndex : Int) < (e.routine.length : Int) - 1) :
    nextInterval e t =
      (let e1 := { e with
          currentIntervalIndex := e.currentIntervalIndex + 1,
          startTime := t - cumBeforeMs e.routine (e.currentIntervalIndex + 1),
          pausedTime := 0 }
       (e1, [Notification.tick (updateState e1 t),
             Notification.intervalChange (e.currentIntervalIndex + 1)])) := by
  simp [nextInterval, h, adjustTimerForNewInterval]

lemma nextInterval_clamp {e : Engine} {t : Int}
    (h : ¬ (e.currentIntervalIndex : Int) < (e.routine.length : Int) - 1) :
    nextInterval e t = (e, []) := by
  simp [nextInterval, h]

lemma previousInterval_move {e : Engine} {t : Int}
    (h : 0 < e.currentIntervalIndex) :
    previousInterval e t =
      (let e1 := { e with
          currentIntervalIndex := e.currentIntervalIndex - 1,
          startTime := t - cumBeforeMs e.routine (e.currentIntervalIndex - 1),
          pausedTime := 0 }
       (e1, [Notification.tick (updateState e1 t),
             Notification.intervalChange (e.currentIntervalIndex - 1)])) := by
  simp [previousInterval, h, adjustTimerForNewInterval]

lemma previousInterval_clamp {e : Engine} {t : Int}
    (h : ¬ 0 < e.currentIntervalIndex) :
    previousInterval e t = (e, []) := by
  simp [previousInterval, h]

/-! ### Clock-anchor invariant and elapsed-time soundness -/

/-- Sanity of the wall-clock anchors at instant `t`: while running the
logical start (adjusted for paused time) is not in the future, and while
paused it is not later than the instant the pause began. -/
def EngInv (e : Engine) (t : Int) : Prop :=
  (e.isRunning = true → e.startTime + e.pausedTime ≤ t) ∧
  (e.isPaused = true → e.startTime + e.pausedTime ≤ e.pauseStartTime)

lemma engInv_mono {e : Engine} {t t' : Int} (h : EngInv e t) (ht : t ≤ t') :
    EngInv e t' :=
  ⟨fun hr => le_trans (h.1 hr) ht, h.2⟩

lemma engInv_inactive {e : Engine} (t : Int) (hr : e.isRunning = false)
    (hp : e.isPaused = false) : EngInv e t := by
  constructor <;> intro h <;> simp_all

lemma engInv_init (t : Int) : EngInv initEngine t :=
  engInv_inactive t rfl rfl

/-- Every snapshot in the list that reports `isRunning = true` reports a
`totalElapsed` in `[0, totalDuration]`. -/
def RunningElapsedSound (ns : List Notification) : Prop :=
  ∀ s : TimerState, Notification.tick s ∈ ns → s.isRunning = true →
    0 ≤ s.totalElapsed ∧ s.totalElapsed ≤ s.totalDuration

lemma sound_nil : RunningElapsedSound [] := by
  intro s hs
  simp at hs

lemma sound_append {ns1 ns2 : List Notification}
    (h1 : RunningElapsedSound ns1) (h2 : RunningElapsedSound ns2) :
    RunningElapsedSound (ns1 ++ ns2) := by
  intro s hs hr
  rcases List.mem_append.mp hs with h | h
  · exact h1 s h hr
  · exact h2 s h hr

/-- A snapshot taken while running, whose elapsed milliseconds are between
`0` and the routine's total milliseconds, reports sound `totalElapsed`. -/
lemma updateState_sound_of_running {e : Engine} {t : Int}
    (hr : e.isRunning = true)
    (h0 : 0 ≤ t - e.startTime - e.pausedTime)
    (hub : t - e.startTime - e.pausedTime ≤ totalDurationMs e.routine) :
    0 ≤ (updateState e t).totalElapsed ∧
    (updateState e t).totalElapsed ≤ (updateState e t).totalDuration := by
  rw [updateState_totalElapsed_of_running t hr, updateState_totalDuration]
  exact ⟨ediv_1000_nonneg h0, ediv_1000_mono hub⟩

lemma tick_sound {e : Engine} {t : Int} (h : EngInv e t) :
    RunningElapsedSound (tick e t).2 ∧ EngInv (tick e t).1 t := by
  by_cases hr : e.isRunning = true
  · have h0 : 0 ≤ t - e.startTime - e.pausedTime := by
      have := h.1 hr
      omega
    by_cases hc : e.routine.length ≤
        derivedIndex e.routine (t - e.startTime - e.pausedTime)
    · rw [tick_complete hr hc]
      refine ⟨?_, ?_, h.2⟩
      · intro s hs
        simp at hs
      · intro hcontra
        simp at hcontra
    · push_neg at hc
      have hub : t - e.startTime - e.pausedTime ≤ totalDurationMs e.routine :=
        le_of_lt (lt_total_of_derivedIndex_lt hc)
      by_cases hne : derivedIndex e.routine (t - e.startTime - e.pausedTime) =
          e.currentIntervalIndex
      · rw [tick_run_same hr hc hne]
        refine ⟨?_, h⟩
        intro s hs hsr
        simp only [List.mem_singleton, Notification.tick.injEq] at hs
        subst hs
        have hrw : updateState { e with animationFrameId := true } t
            = updateState e t := rfl
        rw [hrw]
        exact updateState_sound_of_running hr h0 hub
      · rw [tick_run_changed hr hc hne]
        refine ⟨?_, h⟩
        intro s hs hsr
        simp at hs
        subst hs
        have hrw : updateState { e with
            currentIntervalIndex :=
              derivedIndex e.routine (t - e.startTime - e.pausedTime),
            animationFrameId := true } t
            = updateState { e with
                currentIntervalIndex :=
                  derivedIndex e.routine (t - e.startTime - e.pausedTime) } t := rfl
        rw [hrw]
        exact updateState_sound_of_running hr h0 hub
  · have hr' : e.isRunning = false := by
      cases hcase : e.isRunning
      · rfl
      · exact absurd hcase hr
    rw [tick_not_running hr']
    exact ⟨sound_nil, h⟩

lemma updateState_isRunning (e : Engine) (now : Int) :
    (updateState e now).isRunning = e.isRunning := rfl

lemma updateState_isPaused (e : Engine) (now : Int) :
    (updateState e now).isPaused = e.isPaused := rfl

lemma start_sound {e : Engine} {t : Int} (h : EngInv e t) :
    RunningElapsedSound (start e t).2 ∧ EngInv (start e t).1 t := by
  by_cases hlen : e.routine.length = 0
  · rw [start_empty hlen]
    exact ⟨sound_nil, h⟩
  by_cases hp : e.isPaused = true
  · rw [start_resume hlen hp]
    apply tick_sound
    refine ⟨fun _ => ?_, fun hpc => ?_⟩
    · show e.startTime + (e.pausedTime + (t - e.pauseStartTime)) ≤ t
      have := h.2 hp
      omega
    · simp at hpc
  · have hp' : e.isPaused = false := by
      cases hcase : e.isPaused
      · rfl
      · exact absurd hcase hp
    rw [start_fresh hlen hp']
    apply tick_sound
    refine ⟨fun _ => ?_, fun hpc => ?_⟩
    · show t + 0 ≤ t
      omega
    · simp [hp'] at hpc

lemma pause_sound {e : Engine} {t : Int} (h : EngInv e t) :
    RunningElapsedSound (pause e t).2 ∧ EngInv (pause e t).1 t := by
  by_cases hr : e.isRunning = true
  · rw [pause_running hr]
    constructor
    · intro s hs hsr
      simp at hs
      subst hs
      rw [updateState_isRunning] at hsr
      simp at hsr
    · refine ⟨fun hrc => ?_, fun _ => ?_⟩
      · simp at hrc
      · show e.startTime + e.pausedTime ≤ t
        exact h.1 hr
  · have hr' : e.isRunning = false := by
      cases hcase : e.isRunning
      · rfl
      · exact absurd hcase hr
    rw [pause_not_running hr']
    exact ⟨sound_nil, h⟩

lemma reset_sound (e : Engine) (t : Int) :
    RunningElapsedSound (reset e t).2 ∧ EngInv (reset e t).1 t := by
  constructor
  · intro s hs hsr
    simp [reset] at hs
    subst hs
    rw [updateState_isRunning] at hsr
    simp at hsr
  · exact engInv_inactive t rfl rfl

lemma setRoutine_sound (e : Engine) (t : Int) (r : Routine) :
    RunningElapsedSound (setRoutine e t r).2 ∧ EngInv (setRoutine e t r).1 t := by
  constructor
  · intro s hs hsr
    simp [setRoutine, reset] at hs
    subst hs
    rw [updateState_isRunning] at hsr
    simp at hsr
  · exact engInv_inactive t rfl rfl

lemma nextInterval_sound {e : Engine} {t : Int} (h : EngInv e t)
    (hp : e.isPaused = false) :
    RunningElapsedSound (nextInterval e t).2 ∧ EngInv (nextInterval e t).1 t := by
  by_cases hmv : (e.currentIntervalIndex : Int) < (e.routine.length : Int) - 1
  · rw [nextInterval_move hmv]
    constructor
    · intro s hs hsr
      simp at hs
      subst hs
      refine updateState_sound_of_running ?_ ?_ ?_
      · exact hsr
      · show 0 ≤ t - (t - cumBeforeMs e.routine (e.currentIntervalIndex + 1)) - 0
        have := cumBeforeMs_nonneg e.routine (e.currentIntervalIndex + 1)
        omega
      · show t - (t - cumBeforeMs e.routine (e.currentIntervalIndex + 1)) - 0
          ≤ totalDurationMs e.routine
        have := cumBeforeMs_le_total e.routine (e.currentIntervalIndex + 1)
        omega
    · refine ⟨fun _ => ?_, fun hpc => ?_⟩
      · show t - cumBeforeMs e.routine (e.currentIntervalIndex + 1) + 0 ≤ t
        have := cumBeforeMs_nonneg e.routine (e.currentIntervalIndex + 1)
        omega
      · simp [hp] at hpc
  · rw [nextInterval_clamp hmv]
    exact ⟨sound_nil, h⟩

lemma previousInterval_sound {e : Engine} {t : Int} (h : EngInv e t)
    (hp : e.isPaused = false) :
    RunningElapsedSound (previousInterval e t).2 ∧
    EngInv (previousInterval e t).1 t := by
  by_cases hmv : 0 < e.currentIntervalIndex
  · rw [previousInterval_move hmv]
    constructor
    · intro s hs hsr
      simp at hs
      subst hs
      refine updateState_sound_of_running ?_ ?_ ?_
      · exact hsr
      · show 0 ≤ t - (t - cumBeforeMs e.routine (e.currentIntervalIndex - 1)) - 0
        have := cumBeforeMs_nonneg e.routine (e.currentIntervalIndex - 1)
        omega
      · show t - (t - cumBeforeMs e.routine (e.currentIntervalIndex - 1)) - 0
          ≤ totalDurationMs e.routine
        have := cumBeforeMs_le_total e.routine (e.currentIntervalIndex - 1)
        omega
    · refine ⟨fun _ => ?_, fun hpc => ?_⟩
      · show t - cumBeforeMs e.routine (e.currentIntervalIndex - 1) + 0 ≤ t
        have := cumBeforeMs_nonneg e.routine (e.currentIntervalIndex - 1)
        omega
      · simp [hp] at hpc
  · rw [previousInterval_clamp hmv]
    exact ⟨sound_nil, h⟩

lemma stepOp_sound {e : Engine} {t : Int} (op : Op) (h : EngInv e t)
    (hnav : ((op == Op.next || op == Op.prev) && e.isPaused) = false) :
    RunningElapsedSound (stepOp e t op).2 ∧ EngInv (stepOp e t op).1 t := by
  cases op with
  | load r => exact setRoutine_sound e t r
  | opStart => exact start_sound h
  | opPause => exact pause_sound h
  | opReset => exact reset_sound e t
  | next =>
      simp at hnav
      exact nextInterval_sound h hnav
  | prev =>
      simp at hnav
      exact previousInterval_sound h hnav
  | frame =>
      show RunningElapsedSound (if e.animationFrameId then
          tick { e with animationFrameId := false } t else (e, [])).2 ∧ _
      by_cases ha : e.animationFrameId = true
      · simp only [stepOp, ha, if_true]
        apply tick_sound
        exact ⟨h.1, h.2⟩
      · have ha' : e.animationFrameId = false := by
          cases hcase : e.animationFrameId
          · rfl
          · exact absurd hcase ha
        simp only [stepOp, ha', Bool.false_eq_true, if_false]
        exact ⟨sound_nil, h⟩

lemma runTrace_sound {e : Engine} {t : Int} (tr : List (Int × Op))
    (h : EngInv e t) (hchron : chronological t tr = true)
    (hnav : noPausedNav e tr = true) :
    RunningElapsedSound (runTrace e tr).2 := by
  induction tr generalizing e t with
  | nil => exact sound_nil
  | cons p rest ih =>
      obtain ⟨t', op⟩ := p
      rw [chronological] at hchron
      rw [noPausedNav] at hnav
      simp only [Bool.and_eq_true, decide_eq_true_eq] at hchron
      simp only [Bool.and_eq_true, Bool.not_eq_true'] at hnav
      have hinv' : EngInv e t' := engInv_mono h hchron.1
      have hstep := stepOp_sound op hinv' hnav.1
      rw [runTrace]
      exact sound_append hstep.1 (ih hstep.2 hchron.2 hnav.2)

/-- After `setRoutine` the engine holds the new routine and is otherwise in
the reset state, whatever it held before. -/
lemma setRoutine_engine (e : Engine) (now : Int) (r : Routine) :
    (setRoutine e now r).1 =
      { startTime := 0, pausedTime := 0, pauseStartTime := 0,
        animationFrameId := false, routine := r,
        currentIntervalIndex := 0, isRunning := false, isPaused := false } := rfl

/-- A non-completing re-evaluation: anchors, routine and pause flag are kept,
the engine keeps running, an iteration is scheduled, and the notification
list ends with the snapshot of the updated engine. -/
lemma tick_run_fields {e : Engine} {t : Int} (hr : e.isRunning = true)
    (hc : derivedIndex e.routine (t - e.startTime - e.pausedTime) <
      e.routine.length) :
    ((tick e t).1.startTime = e.startTime ∧
     (tick e t).1.pausedTime = e.pausedTime ∧
     (tick e t).1.pauseStartTime = e.pauseStartTime ∧
     (tick e t).1.routine = e.routine ∧
     (tick e t).1.isRunning = true ∧
     (tick e t).1.isPaused = e.isPaused ∧
     (tick e t).1.animationFrameId = true) ∧
    (tick e t).2.getLast? = some (Notification.tick (updateState (tick e t).1 t)) := by
  by_cases hne : derivedIndex e.routine (t - e.startTime - e.pausedTime) =
      e.currentIntervalIndex
  · rw [tick_run_same hr hc hne]
    exact ⟨⟨rfl, rfl, rfl, rfl, hr, rfl, rfl⟩, rfl⟩
  · rw [tick_run_changed hr hc hne]
    exact ⟨⟨rfl, rfl, rfl, rfl, hr, rfl, rfl⟩, rfl⟩

/-- `Math.ceil` of a clamped remaining-window, divided by 1000, lies in
`[0, d]` whenever the subtracted elapsed part is nonnegative. -/
lemma ceil_window_bounds (d : Nat) (x : Int) (hx : 0 ≤ x) :
    0 ≤ ceilDiv (max 0 ((d : Int) * 1000 - x)) 1000 ∧
    ceilDiv (max 0 ((d : Int) * 1000 - x)) 1000 ≤ (d : Int) := by
  have h0 : 0 ≤ max 0 ((d : Int) * 1000 - x) := le_max_left _ _
  have hd : 0 ≤ (d : Int) * 1000 := by positivity
  have hub : max 0 ((d : Int) * 1000 - x) ≤ (d : Int) * 1000 := by
    apply max_le hd
    omega
  refine ⟨ceilDiv_nonneg h0, ?_⟩
  calc ceilDiv (max 0 ((d : Int) * 1000 - x)) 1000
      ≤ ceilDiv ((d : Int) * 1000) 1000 := ceilDiv_mono hub
    _ = (d : Int) := ceilDiv_mul_1000 _

/-! ### Claim theorems -/

/-- C1: for a nonnegative elapsed time `totalElapsedMs = now - startTime -
pausedTime`, the index derived by `tick` is the unique index whose half-open
millisecond span `[cumBeforeMs, cumBeforeMs + intervalMs)` contains the
elapsed time (so a boundary instant belongs to the next interval), and an
elapsed time at or past the total duration yields an index equal to the
routine length; concretely, loading `[{A,5s},{B,10s}]`, starting, and
advancing the wall clock by exactly 5000ms yields `currentIntervalIndex = 1`
with exactly one interval-changed notification, carrying payload `1`. -/
theorem claim_C1_derived_index_halfopen :
    (∀ (r : Routine) (t : Int), 0 ≤ t →
      (derivedIndex r t < r.length →
        cumBeforeMs r (derivedIndex r t) ≤ t ∧
        t < cumBeforeMs r (derivedIndex r t) + intervalMs r (derivedIndex r t)) ∧
      (∀ i : Nat, i < r.length → cumBeforeMs r i ≤ t →
        t < cumBeforeMs r i + intervalMs r i → i = derivedIndex r t) ∧
      (totalDurationMs r ≤ t ↔ derivedIndex r t = r.length)) ∧
    ((runTrace initEngine
        [(0, Op.load demoAB), (0, Op.opStart), (1000, Op.frame), (2500, Op.frame),
         (4999, Op.frame), (5000, Op.frame)]).1.currentIntervalIndex = 1 ∧
      intervalChanges (runTrace initEngine
        [(0, Op.load demoAB), (0, Op.opStart), (1000, Op.frame), (2500, Op.frame),
         (4999, Op.frame), (5000, Op.frame)]).2 =
        [Notification.intervalChange 1]) := by
  constructor
  · intro r t ht
    refine ⟨fun h => derivedIndex_mem ht h,
      fun i hi hlow hhigh => derivedIndex_unique ht hi hlow hhigh, ?_, ?_⟩
    · exact fun h => derivedIndex_eq_length h
    · intro h
      by_contra hlt
      push_neg at hlt
      have := derivedIndex_lt_length ht hlt
      omega
  · constructor <;> decide

/-- Witness for C1 at the concrete boundary instant: the derived index of
`[{A,5s},{B,10s}]` at 5000ms elapsed has a span containing 5000. -/
theorem claim_C1_derived_index_halfopen_witness :
    cumBeforeMs demoAB (derivedIndex demoAB 5000) ≤ 5000 ∧
    5000 < cumBeforeMs demoAB (derivedIndex demoAB 5000) +
      intervalMs demoAB (derivedIndex demoAB 5000) :=
  (claim_C1_derived_index_halfopen.1 demoAB 5000 (by decide)).1 (by decide)

/-- C3: every state notification payload is built by `updateState`, and for
every engine state and every instant the reported `timeRemaining` lies in
`[0, d]`, where `d` is the current interval's duration in seconds and `0`
when the routine is empty. -/
theorem claim_C3_timeRemaining_in_range (e : Engine) (now : Int) :
    0 ≤ (updateState e now).timeRemaining ∧
    (updateState e now).timeRemaining ≤
      (match getCurrentInterval e with
       | some iv => (iv.duration : Int)
       | none => 0) := by
  cases hcur : getCurrentInterval e with
  | some iv =>
      simp only [updateState, hcur]
      exact ceil_window_bounds iv.duration _ (le_max_left _ _)
  | none =>
      simp only [updateState, hcur]
      exact ceil_window_bounds 0 _ (le_max_left _ _)

/-- C4 counterexample: under the operation sequence `c4Trace` (which
navigates to the next interval while paused and then resumes), the engine
emits a state notification with `isRunning = true` whose `totalElapsed` is
`-89`, outside `[0, totalDuration]`. -/
theorem claim_C4_counterexample :
    (Notification.tick c4BadSnapshot ∈ (runTrace initEngine c4Trace).2) ∧
    c4BadSnapshot.isRunning = true ∧ c4BadSnapshot.totalElapsed < 0 :=
  ⟨by decide, by decide, by decide⟩

/-- C4 (amended): under every chronologically ordered sequence of operations
in which `nextInterval`/`previousInterval` are never invoked while paused,
every state notification emitted with `isRunning = true` reports a
`totalElapsed` within `[0, totalDuration]`. -/
theorem claim_C4_totalElapsed_in_range (t0 : Int) (tr : List (Int × Op))
    (hchron : chronological t0 tr = true)
    (hnav : noPausedNav initEngine tr = true) :
    ∀ s : TimerState, Notification.tick s ∈ (runTrace initEngine tr).2 →
      s.isRunning = true →
      0 ≤ s.totalElapsed ∧ s.totalElapsed ≤ s.totalDuration :=
  runTrace_sound tr (engInv_init t0) hchron hnav

/-- Witness for the amended C4 on a concrete run: the snapshot emitted by the
re-evaluation one second after starting `[{A,5s},{B,10s}]` satisfies the
bounds. -/
theorem claim_C4_totalElapsed_in_range_witness :
    0 ≤ c4GoodSnapshot.totalElapsed ∧
    c4GoodSnapshot.totalElapsed ≤ c4GoodSnapshot.totalDuration :=
  claim_C4_totalElapsed_in_range 0 c4WitnessTrace (by decide) (by decide)
    c4GoodSnapshot (by decide) (by decide)

/-- Frame events on an engine with no pending callback change nothing and
emit nothing. -/
lemma runTrace_frames_silent {e : Engine} (ha : e.animationFrameId = false) :
    ∀ ts : List (Int × Op), (∀ p ∈ ts, p.2 = Op.frame) →
      runTrace e ts = (e, [])
  | [], _ => rfl
  | (u, op) :: rest, hts => by
      have hop : op = Op.frame := hts (u, op) (List.mem_cons_self _ _)
      subst hop
      have hstep : stepOp e u Op.frame = (e, []) := by
        simp [stepOp, ha]
      rw [runTrace, hstep]
      have hrest := runTrace_frames_silent ha rest
        (fun p hp => hts p (List.mem_cons_of_mem _ hp))
      simp [hrest]

/-- C5: when the index derived by a running re-evaluation is at or past the
end of the routine, the engine stops running, the firing emits exactly one
completed notification and nothing else, no further iteration is scheduled,
and later periodic events emit no notifications at all. -/
theorem claim_C5_completion_terminal (e : Engine) (t : Int)
    (ha : e.animationFrameId = true)
    (hr : e.isRunning = true)
    (hc : e.routine.length ≤
      derivedIndex e.routine (t - e.startTime - e.pausedTime)) :
    (stepOp e t Op.frame).2 = [Notification.complete] ∧
    (stepOp e t Op.frame).1.isRunning = false ∧
    (stepOp e t Op.frame).1.animationFrameId = false ∧
    ∀ ts : List (Int × Op), (∀ p ∈ ts, p.2 = Op.frame) →
      (runTrace (stepOp e t Op.frame).1 ts).2 = [] := by
  have hstep : stepOp e t Op.frame =
      tick { e with animationFrameId := false } t := by
    simp [stepOp, ha]
  rw [hstep, tick_complete (e := { e with animationFrameId := false }) hr hc]
  refine ⟨rfl, rfl, rfl, ?_⟩
  intro ts hts
  rw [runTrace_frames_silent rfl ts hts]

/-- Witness for C5: loading `[{A,3s}]`, starting at 0, the re-evaluation at
3000ms emits exactly the completed notification. -/
theorem claim_C5_completion_terminal_witness :
    (stepOp eC5 3000 Op.frame).2 = [Notification.complete] :=
  (claim_C5_completion_terminal eC5 3000 (by decide) (by decide) (by decide)).1

lemma updateState_totalElapsed_idle {e : Engine} (now : Int)
    (hr : e.isRunning = false) (hp : e.isPaused = false) :
    (updateState e now).totalElapsed = 0 := by
  simp [updateState, hr, hp]

/-- After a load, the reported remaining time is the first interval's
duration (0 for the empty routine), at any later idle instant. -/
lemma updateState_after_load (e : Engine) (now now2 : Int) (r : Routine) :
    (updateState (setRoutine e now r).1 now2).timeRemaining =
      (match r.head? with | some iv => (iv.duration : Int) | none => 0) := by
  rw [setRoutine_engine]
  cases r with
  | nil =>
      simp [updateState, getCurrentInterval]
      decide
  | cons iv rest =>
      simp only [updateState, getCurrentInterval]
      norm_num
      rw [cumBeforeMs_zero]
      norm_num
      rw [max_eq_right (durMs_nonneg iv)]
      exact ceilDiv_mul_1000 _

/-- C6 counterexample: loading `[{A,5s},{B,10s}]` into a fresh engine emits
two state notifications, not exactly one. -/
theorem claim_C6_counterexample :
    (setRoutine initEngine 0 demoAB).2.length = 2 ∧
    (setRoutine initEngine 0 demoAB).2.length ≠ 1 :=
  ⟨by decide, by decide⟩

/-- C6 (amended): for every routine and prior state, `setRoutine` replaces
the routine, resets to the idle state (index 0, not running, not paused,
zero anchors), reports a total duration equal to the sum of the new
routine's durations, and immediately emits exactly two identical state
notifications (one from the internal reset, one from the final update),
both reflecting the new routine's first interval or the empty state. -/
theorem claim_C6_load_resets (e : Engine) (now : Int) (r : Routine) :
    (setRoutine e now r).1.routine = r ∧
    (setRoutine e now r).1.currentIntervalIndex = 0 ∧
    (setRoutine e now r).1.isRunning = false ∧
    (setRoutine e now r).1.isPaused = false ∧
    (setRoutine e now r).1.startTime = 0 ∧
    (setRoutine e now r).1.pausedTime = 0 ∧
    (setRoutine e now r).2 =
      [Notification.tick (updateState (setRoutine e now r).1 now),
       Notification.tick (updateState (setRoutine e now r).1 now)] ∧
    (updateState (setRoutine e now r).1 now).totalDuration =
      (sumDurations r : Int) ∧
    (updateState (setRoutine e now r).1 now).totalElapsed = 0 ∧
    (updateState (setRoutine e now r).1 now).isRunning = false ∧
    (updateState (setRoutine e now r).1 now).isPaused = false ∧
    (updateState (setRoutine e now r).1 now).currentIntervalIndex = 0 ∧
    (updateState (setRoutine e now r).1 now).timeRemaining =
      (match r.head? with | some iv => (iv.duration : Int) | none => 0) := by
  refine ⟨rfl, rfl, rfl, rfl, rfl, rfl, rfl, ?_, rfl, rfl, rfl, rfl,
    updateState_after_load e now now r⟩
  rw [updateState_totalDuration]
  show totalDurationMs r / 1000 = _
  rw [totalDurationMs_eq_sumDurations, ediv_mul_1000]

/-- C7: on a non-empty routine, `nextInterval`/`previousInterval` move the
index by plus or minus one, clamped to `[0, length-1]` (no-op at either
boundary); an actual move to index `K` re-anchors the logical start so the
elapsed-time bookkeeping at the instant of the call equals the summed
duration of the intervals before `K`, zeroes the accumulated paused
duration, and emits an interval-changed notification carrying `K` together
with a state notification. -/
theorem claim_C7_navigation (e : Engine) (t : Int) ( _hne : e.routine ≠ []) :
    ((e.currentIntervalIndex : Int) < (e.routine.length : Int) - 1 →
      (nextInterval e t).1.currentIntervalIndex = e.currentIntervalIndex + 1 ∧
      t - (nextInterval e t).1.startTime - (nextInterval e t).1.pausedTime =
        cumBeforeMs e.routine (e.currentIntervalIndex + 1) ∧
      (nextInterval e t).1.pausedTime = 0 ∧
      (nextInterval e t).2 =
        [Notification.tick (updateState (nextInterval e t).1 t),
         Notification.intervalChange (e.currentIntervalIndex + 1)]) ∧
    (¬ (e.currentIntervalIndex : Int) < (e.routine.length : Int) - 1 →
      nextInterval e t = (e, [])) ∧
    (0 < e.currentIntervalIndex →
      (previousInterval e t).1.currentIntervalIndex =
        e.currentIntervalIndex - 1 ∧
      t - (previousInterval e t).1.startTime -
          (previousInterval e t).1.pausedTime =
        cumBeforeMs e.routine (e.currentIntervalIndex - 1) ∧
      (previousInterval e t).1.pausedTime = 0 ∧
      (previousInterval e t).2 =
        [Notification.tick (updateState (previousInterval e t).1 t),
         Notification.intervalChange (e.currentIntervalIndex - 1)]) ∧
    (¬ 0 < e.currentIntervalIndex → previousInterval e t = (e, [])) := by
  refine ⟨fun hmv => ?_, fun hmv => nextInterval_clamp hmv,
    fun hmv => ?_, fun hmv => previousInterval_clamp hmv⟩
  · rw [nextInterval_move hmv]
    refine ⟨rfl, ?_, rfl, rfl⟩
    show t - (t - cumBeforeMs e.routine (e.currentIntervalIndex + 1)) - 0 = _
    ring
  · rw [previousInterval_move hmv]
    refine ⟨rfl, ?_, rfl, rfl⟩
    show t - (t - cumBeforeMs e.routine (e.currentIntervalIndex - 1)) - 0 = _
    ring

/-- Witness for C7 on `[{A,5s},{B,10s}]` at index 0: `nextInterval` moves to
index 1 and `previousInterval` is a clamped no-op. -/
theorem claim_C7_navigation_witness :
    (nextInterval eC7 5000).1.currentIntervalIndex =
      eC7.currentIntervalIndex + 1 ∧
    previousInterval eC7 5000 = (eC7, []) :=
  ⟨((claim_C7_navigation eC7 5000 (by decide)).1 (by decide)).1,
   (claim_C7_navigation eC7 5000 (by decide)).2.2.2 (by decide)⟩

/-- Index reported after a non-completing re-evaluation: the derived one. -/
lemma tick_run_index {e : Engine} {t : Int} (hr : e.isRunning = true)
    (hc : derivedIndex e.routine (t - e.startTime - e.pausedTime) <
      e.routine.length) :
    (tick e t).1.currentIntervalIndex =
      derivedIndex e.routine (t - e.startTime - e.pausedTime) := by
  by_cases hne : derivedIndex e.routine (t - e.startTime - e.pausedTime) =
      e.currentIntervalIndex
  · rw [tick_run_same hr hc hne]
    exact hne.symm
  · rw [tick_run_changed hr hc hne]

/-- C8 counterexample: run `[{A,3s}]` to completion (engine stopped, one
completed notification emitted); calling `start()` then re-enters Running
without any `reset()` or `loadRoutine()`. -/
theorem claim_C8_counterexample :
    eCompleted.isRunning = false ∧ eCompleted.isPaused = false ∧
    (Notification.complete ∈ (runTrace initEngine
      [(0, Op.load demoSingle3), (0, Op.opStart), (3000, Op.frame)]).2) ∧
    (start eCompleted 4000).1.isRunning = true :=
  ⟨by decide, by decide, by decide, by decide⟩

/-- C8 (amended): the post-completion state (stopped, not paused) re-enters
Idle via `reset()`, but it is not terminal with respect to `start()`: on a
non-empty routine of positive total duration, `start()` from any stopped
non-paused state takes the fresh-start branch and re-enters Running with
`startTime = now` and zero accumulated pause. -/
theorem claim_C8_completed_exits (e : Engine) (now : Int)
    ( _hr : e.isRunning = false) (hp : e.isPaused = false)
    (hlen : e.routine.length ≠ 0)
    (hpos : 0 < totalDurationMs e.routine) :
    (start e now).1.isRunning = true ∧
    (start e now).1.startTime = now ∧
    (start e now).1.pausedTime = 0 ∧
    (reset e now).1.isRunning = false ∧
    (reset e now).1.isPaused = false ∧
    (reset e now).1.currentIntervalIndex = 0 := by
  rw [start_fresh hlen hp]
  set e1 : Engine := { e with startTime := now, pausedTime := 0, isRunning := true } with he1
  have hidx : derivedIndex e1.routine (now - e1.startTime - e1.pausedTime) <
      e1.routine.length := by
    show derivedIndex e.routine (now - now - 0) < e.routine.length
    rw [show now - now - (0 : Int) = 0 from by ring]
    exact derivedIndex_lt_length le_rfl hpos
  have hf := tick_run_fields (e := e1) (t := now) rfl hidx
  exact ⟨hf.1.2.2.2.2.1, hf.1.1, hf.1.2.1, rfl, rfl, rfl⟩

/-- Witness for the amended C8: from the concrete completed state of
`[{A,3s}]`, `start()` at 4000ms re-enters Running. -/
theorem claim_C8_completed_exits_witness :
    (start eCompleted 4000).1.isRunning = true :=
  (claim_C8_completed_exits eCompleted 4000 (by decide) (by decide)
    (by decide) (by decide)).1

/-- C9: after loading the empty routine the engine is at the empty defaults
(index 0, not running, not paused, zero anchors, zero reported totals);
`start`, `nextInterval` and `previousInterval` are silent no-ops (the
embedding is total, so no exception is possible), and `getCurrentInterval`
returns `none`. -/
theorem claim_C9_empty_routine (e : Engine) (now t : Int) :
    (setRoutine e now []).1 = initEngine ∧
    start (setRoutine e now []).1 t = ((setRoutine e now []).1, []) ∧
    nextInterval (setRoutine e now []).1 t = ((setRoutine e now []).1, []) ∧
    previousInterval (setRoutine e now []).1 t =
      ((setRoutine e now []).1, []) ∧
    getCurrentInterval (setRoutine e now []).1 = none ∧
    (updateState (setRoutine e now []).1 now).totalDuration = 0 ∧
    (updateState (setRoutine e now []).1 now).totalElapsed = 0 :=
  ⟨rfl, rfl, rfl, rfl, rfl, rfl, rfl⟩

/-- C10 counterexample: with `[{A,5s},{B,10s}]` running at index 1, calling
`start()` again does not leave the index unchanged: the synchronous
re-evaluation inside the call re-derives index 0 and fires an
interval-changed notification before the call returns. -/
theorem claim_C10_counterexample :
    eC10.isRunning = true ∧ eC10.isPaused = false ∧
    eC10.currentIntervalIndex = 1 ∧
    (start eC10 6000).1.currentIntervalIndex = 0 ∧
    Notification.intervalChange 0 ∈ (start eC10 6000).2 :=
  ⟨by decide, by decide, by decide, by decide, by decide⟩

/-- C10 (amended): `start()` on a non-empty routine of positive total
duration while running and not paused takes the fresh-start branch —
`startTime := now`, zero accumulated pause, still running — and its
synchronous re-evaluation immediately re-derives the interval index from
the restarted clock, leaving the index at `derivedIndex routine 0` (not
necessarily the index before the call). -/
theorem claim_C10_start_while_running (e : Engine) (now : Int)
    ( _hr : e.isRunning = true) (hp : e.isPaused = false)
    (hlen : e.routine.length ≠ 0) (hpos : 0 < totalDurationMs e.routine) :
    (start e now).1.startTime = now ∧
    (start e now).1.pausedTime = 0 ∧
    (start e now).1.isRunning = true ∧
    (start e now).1.currentIntervalIndex = derivedIndex e.routine 0 := by
  rw [start_fresh hlen hp]
  set e1 : Engine := { e with startTime := now, pausedTime := 0, isRunning := true } with he1
  have h0 : now - e1.startTime - e1.pausedTime = 0 := by
    show now - now - (0 : Int) = 0
    ring
  have hidx : derivedIndex e1.routine (now - e1.startTime - e1.pausedTime) <
      e1.routine.length := by
    rw [h0]
    show derivedIndex e.routine 0 < e.routine.length
    exact derivedIndex_lt_length le_rfl hpos
  have hf := tick_run_fields (e := e1) (t := now) rfl hidx
  have hix := tick_run_index (e := e1) (t := now) rfl hidx
  rw [h0] at hix
  exact ⟨hf.1.1, hf.1.2.1, hf.1.2.2.2.2.1, hix⟩

/-- Witness for the amended C10: restarting `[{A,5s},{B,10s}]` while running
inside the second interval re-derives index `derivedIndex routine 0`. -/
theorem claim_C10_start_while_running_witness :
    (start eC10 6000).1.currentIntervalIndex = derivedIndex eC10.routine 0 :=
  (claim_C10_start_while_running eC10 6000 (by decide) (by decide)
    (by decide) (by decide)).2.2.2

lemma pause_running_fst {e : Engine} {t : Int} (hr : e.isRunning = true) :
    (pause e t).1 = { e with isPaused := true, isRunning := false, pauseStartTime := t, animationFrameId := false } := by
  rw [pause_running hr]

set_option maxRecDepth 8000 in
/-- C2: starting a routine at `t0`, pausing after `E` seconds of running,
resuming via `start()` after a further `P` seconds of pause, and letting the
periodic re-evaluation fire after `F` more seconds of running: the snapshot
that re-evaluation emits reports `totalElapsed = E + F`, exactly and
independently of the pause length `P`. -/
theorem claim_C2_pause_exclusion (r : Routine) (E P F : Nat) (t0 : Int)
    (hEF : E + F < sumDurations r) :
    ∃ s : TimerState,
      (tick (start (pause (start (setRoutine initEngine t0 r).1 t0).1
          (t0 + (E : Int) * 1000)).1 (t0 + (E : Int) * 1000 + (P : Int) * 1000)).1
        (t0 + (E : Int) * 1000 + (P : Int) * 1000 + (F : Int) * 1000)).2.getLast?
        = some (Notification.tick s) ∧
      s.isRunning = true ∧ s.totalElapsed = (E : Int) + (F : Int) := by
  have htot := totalDurationMs_eq_sumDurations r
  have hlen : r.length ≠ 0 := by
    intro hnil
    rw [List.length_eq_zero] at hnil
    subst hnil
    simp [sumDurations] at hEF
  have hEFms : ((E : Int) + (F : Int)) * 1000 < totalDurationMs r := by
    rw [htot]
    have hEFlt : (E : Int) + (F : Int) < (sumDurations r : Int) := by
      exact_mod_cast hEF
    exact mul_lt_mul_of_pos_right hEFlt (by norm_num)
  have hEms : (E : Int) * 1000 < totalDurationMs r := by
    rw [htot]
    have hElt : (E : Int) < (sumDurations r : Int) := by
      have : E < sumDurations r := by omega
      exact_mod_cast this
    exact mul_lt_mul_of_pos_right hElt (by norm_num)
  have hpos : (0 : Int) < totalDurationMs r := by
    have h1 : (0 : Int) ≤ ((E : Int) + (F : Int)) * 1000 := by positivity
    omega
  set t1 : Int := t0 + (E : Int) * 1000 with ht1
  set t2 : Int := t1 + (P : Int) * 1000 with ht2
  set t3 : Int := t2 + (F : Int) * 1000 with ht3
  set R0 : Engine := (setRoutine initEngine t0 r).1 with hR0
  have hR0len : R0.routine.length ≠ 0 := hlen
  have hR0p : R0.isPaused = false := rfl
  rw [start_fresh hR0len hR0p]
  set e1 : Engine := { R0 with startTime := t0, pausedTime := 0, isRunning := true } with he1
  have hidx1 : derivedIndex e1.routine (t0 - e1.startTime - e1.pausedTime) <
      e1.routine.length := by
    show derivedIndex r (t0 - t0 - 0) < r.length
    rw [show t0 - t0 - (0 : Int) = 0 from by ring]
    exact derivedIndex_lt_length le_rfl hpos
  have hf1 := tick_run_fields (e := e1) (t := t0) rfl hidx1
  set e2 : Engine := (tick e1 t0).1 with he2
  have h2run : e2.isRunning = true := hf1.1.2.2.2.2.1
  have h2st : e2.startTime = t0 := hf1.1.1
  have h2pt : e2.pausedTime = 0 := hf1.1.2.1
  have h2r : e2.routine = r := hf1.1.2.2.2.1
  rw [pause_running_fst h2run]
  set e3 : Engine := { e2 with isPaused := true, isRunning := false, pauseStartTime := t1, animationFrameId := false } with he3
  have h3len : e3.routine.length ≠ 0 := by
    show e2.routine.length ≠ 0
    rw [h2r]
    exact hlen
  have h3p : e3.isPaused = true := rfl
  rw [start_resume h3len h3p]
  set e4 : Engine := { e3 with pausedTime := e3.pausedTime + (t2 - e3.pauseStartTime), isPaused := false, isRunning := true } with he4
  have h4st : e4.startTime = t0 := h2st
  have h4pt : e4.pausedTime = t2 - t1 := by
    show e2.pausedTime + (t2 - t1) = t2 - t1
    rw [h2pt]
    ring
  have h4r : e4.routine = r := h2r
  have hidx4 : derivedIndex e4.routine (t2 - e4.startTime - e4.pausedTime) <
      e4.routine.length := by
    rw [h4st, h4pt, h4r]
    rw [show t2 - t0 - (t2 - t1) = (E : Int) * 1000 from by rw [ht1]; ring]
    exact derivedIndex_lt_length (by positivity) hEms
  have hf4 := tick_run_fields (e := e4) (t := t2) rfl hidx4
  set e5 : Engine := (tick e4 t2).1 with he5
  have h5run : e5.isRunning = true := hf4.1.2.2.2.2.1
  have h5st : e5.startTime = t0 := hf4.1.1.trans h4st
  have h5pt : e5.pausedTime = t2 - t1 := hf4.1.2.1.trans h4pt
  have h5r : e5.routine = r := hf4.1.2.2.2.1.trans h4r
  have harg5 : t3 - e5.startTime - e5.pausedTime = ((E : Int) + (F : Int)) * 1000 := by
    rw [h5st, h5pt, ht3, ht2, ht1]
    ring
  have hidx5 : derivedIndex e5.routine (t3 - e5.startTime - e5.pausedTime) <
      e5.routine.length := by
    rw [harg5, h5r]
    exact derivedIndex_lt_length (by positivity) hEFms
  have hf5 := tick_run_fields (e := e5) (t := t3) h5run hidx5
  refine ⟨updateState (tick e5 t3).1 t3, hf5.2, ?_, ?_⟩
  · rw [updateState_isRunning]
    exact hf5.1.2.2.2.2.1
  · rw [updateState_totalElapsed_of_running t3 hf5.1.2.2.2.2.1]
    have h6st : (tick e5 t3).1.startTime = t0 := hf5.1.1.trans h5st
    have h6pt : (tick e5 t3).1.pausedTime = t2 - t1 := hf5.1.2.1.trans h5pt
    rw [h6st, h6pt]
    rw [show t3 - t0 - (t2 - t1) = ((E : Int) + (F : Int)) * 1000 from by rw [ht3, ht2, ht1]; ring]
    exact ediv_mul_1000 _

/-- Witness for C2: on `[{A,5s},{B,10s}]`, running 2s, pausing 7s, resuming
and running 4s more reports `totalElapsed = 6`. -/
theorem claim_C2_pause_exclusion_witness :
    ∃ s : TimerState,
      (tick (start (pause (start (setRoutine initEngine 0 demoAB).1 0).1
          (0 + (2 : Int) * 1000)).1 (0 + (2 : Int) * 1000 + (7 : Int) * 1000)).1
        (0 + (2 : Int) * 1000 + (7 : Int) * 1000 + (4 : Int) * 1000)).2.getLast?
        = some (Notification.tick s) ∧
      s.isRunning = true ∧ s.totalElapsed = (2 : Int) + (4 : Int) :=
  claim_C2_pause_exclusion demoAB 2 7 4 0 (by decide)

end Reptimer
